import Mathlib

/-!
Verification development for the user/auth core of the ekrsw/FastAPI
repository (`src/backend/app`).  The Python source is shallowly embedded:

* `UserRow` mirrors the SQLAlchemy model `User` (`app/models/user.py`)
  together with the `ModelBaseMixin` columns (`app/models/base.py`);
  the primary-key `id` column comes from the declarative base, which is
  not shipped under `src/backend` (only `app/db/database.py` of the old
  tree is present); the spec describes it as an opaque unique identifier.
* the persistence layer is a list of rows; a commit enforces the table
  constraints declared on the model (`username` is `unique=True`,
  the primary key is unique), as the relational engine would on flush.
* the soft-delete query rewrite of `_add_filtering_deleted_at`
  (`app/models/base.py`) becomes the `scopedRows` filter applied by every
  read unless `include_deleted` is set.
* token values are modelled symbolically: a well-formed JWT is the
  signed claims plus the secret/algorithm it was signed with, and
  anything else is a malformed blob.  `python-jose`'s `jwt.encode` is a
  deterministic function of these inputs (HS256 JWS has no randomness).
* time is an abstract `Nat` clock (minutes), passed explicitly where the
  Python code reads `datetime.now` / `func.now()`.
-/

namespace FastAPIUsers

/-! ## Errors

The error surface of the embedded code: `httpError` is a raised
`HTTPException(status_code, detail)`, `validationError` a pydantic
validation failure (rendered 422 at the boundary), `valueError` /
`pyException` the `ValueError` / bare `Exception` raised by
`User.update_user`, `integrityError` a database constraint violation
surfacing at commit, `attributeError` a Python attribute lookup failure,
and `jwtError` a `jose.JWTError` (the Token Service's `TokenError`). -/

inductive TokenError where
  | malformed : TokenError
  | badSignature : TokenError
  | expired : TokenError
deriving Repr, DecidableEq

inductive Err where
  | httpError (status : Nat) (detail : String) : Err
  | validationError (msg : String) : Err
  | valueError (msg : String) : Err
  | pyException (msg : String) : Err
  | integrityError : Err
  | attributeError (msg : String) : Err
  | jwtError (e : TokenError) : Err
deriving Repr, DecidableEq

/-! ## Configuration (`app/core/config.py`) -/

structure Settings where
  jwt_secret_key : String
  jwt_algorithm : String
  jwt_access_token_expire_minutes : Nat
  jwt_refresh_secret_key : String
  jwt_refresh_algorithm : String
  jwt_refresh_token_expire_minutes : Nat
deriving Repr, DecidableEq

/-- Default values of `Settings` in `app/core/config.py` (no environment
overrides in the embedding). -/
def settings : Settings :=
  ⟨"my_secret_key", "HS256", 30, "my_secret_key", "HS256", 1440⟩

/-! ## Data model (`app/models/user.py`, `app/models/base.py`) -/

structure UserRow where
  id : String
  username : String
  hashed_password : String
  is_admin : Bool
  created_at : Nat
  updated_at : Nat
  deleted_at : Option Nat
deriving Repr, DecidableEq

/-- A value in a field-mapping payload (`Dict[str, Any]` restricted to
the field types the embedded call sites actually pass). -/
inductive FVal where
  | str (v : String) : FVal
  | boolean (b : Bool) : FVal
deriving Repr, DecidableEq

/-- A Python dict payload: association list with unique keys. -/
abbrev Dict := List (String × FVal)

def dictFind (d : Dict) (k : String) : Option FVal :=
  (List.find? (fun kv => kv.1 == k) d).map (fun kv => kv.2)

/-- Deleting a key, as `del obj_in["password"]` does. -/
def dictErase (d : Dict) (k : String) : Dict :=
  List.filter (fun kv => kv.1 != k) d

/-! ## Validators (`app/schemas/user_schema.py`)

`UserBase.username_valid` strips the username, then checks blankness and
the 3–100 length bound; it returns the stripped value.
`PasswordMixin.password_valid` checks blankness after strip and the 8–30
length bound of the original string, which it returns unchanged. -/

/-- Python's `str.strip()`: drop leading and trailing whitespace.  Defined
structurally over the character list so that it evaluates by reduction. -/
def pyStrip (s : String) : String :=
  ⟨((s.data.dropWhile Char.isWhitespace).reverse.dropWhile Char.isWhitespace).reverse⟩

def username_valid (username : String) : Except Err String :=
  let username := pyStrip username
  if username = "" then
    .error (.validationError "username must not be empty")
  else if username.length < 3 || username.length > 100 then
    .error (.validationError "username must be between 3 and 100 characters")
  else
    .ok username

def password_valid (password : String) : Except Err String :=
  if pyStrip password = "" then
    .error (.validationError "password must not be empty")
  else if password.length < 8 || password.length > 30 then
    .error (.validationError "password must be between 8 and 30 characters")
  else
    .ok password

/-! ## Password hashing (`passlib` bcrypt, external collaborator)

`pwd_context.hash` is an external salted hash.  The embedding uses a
deterministic idealization carrying the bcrypt prefix; the only facts the
theorems rely on are that verification recomputes the hash and that hash
outputs are a function of the plaintext. -/

def pwd_hash (plain : String) : String :=
  "$2b$12$" ++ plain

def pwd_verify (plain hashed : String) : Bool :=
  hashed == pwd_hash plain

/-- `User.set_password`: validate via `UserPasswordSchema` (which is
`PasswordMixin`), then hash (`app/models/user.py` lines 31–35). -/
def set_password (plain : String) : Except Err String :=
  match password_valid plain with
  | .error e => .error e
  | .ok cleaned => .ok (pwd_hash cleaned)

/-! ## The store and its queries -/

def isActive (u : UserRow) : Bool :=
  u.deleted_at.isNone

/-- Visibility filter of `_add_filtering_deleted_at`
(`app/models/base.py` lines 25–49): every select is rewritten with
`deleted_at IS NULL` unless the `include_deleted` execution option is
set. -/
def scopedRows (include_deleted : Bool) (rows : List UserRow) : List UserRow :=
  if include_deleted then rows else rows.filter isActive

/-- `User.get_user_by_id` (`app/models/user.py` lines 67–89). -/
def get_user_by_id (rows : List UserRow) (user_id : String)
    (include_deleted : Bool) : Option UserRow :=
  List.find? (fun u => u.id == user_id) (scopedRows include_deleted rows)

/-- `User.get_user_by_username` (`app/models/user.py` lines 91–100). -/
def get_user_by_username (rows : List UserRow) (username : String)
    (include_deleted : Bool) : Option UserRow :=
  List.find? (fun u => u.username == username) (scopedRows include_deleted rows)

/-- `User.get_all_users` (`app/models/user.py` lines 56–65). -/
def get_all_users (rows : List UserRow) (include_deleted : Bool) : List UserRow :=
  scopedRows include_deleted rows

/-! ## Dynamic field application (`setattr`-style updates)

`create_user` and `update_user` iterate the payload and apply
`setattr(obj, field, value)` whenever `hasattr(obj, field)` holds.  The
mapped attributes of `User` are `id`, `username`, `hashed_password`,
`is_admin` and the mixin timestamps; the timestamp columns are
`DateTime`-typed and none of the embedded call sites pass them, so they
fall through to the identity case along with unknown fields. -/

def setattrUser (u : UserRow) (field : String) (v : FVal) : UserRow :=
  if field = "id" then
    match v with
    | .str s => { u with id := s }
    | _ => u
  else if field = "username" then
    match v with
    | .str s => { u with username := s }
    | _ => u
  else if field = "hashed_password" then
    match v with
    | .str s => { u with hashed_password := s }
    | _ => u
  else if field = "is_admin" then
    match v with
    | .boolean b => { u with is_admin := b }
    | _ => u
  else
    u

def applyFields (u : UserRow) (d : Dict) : UserRow :=
  List.foldl (fun acc kv => setattrUser acc kv.1 kv.2) u d

/-! ## Commit: the table constraints

`username` is declared `unique=True` and the primary key is unique; the
relational engine checks both on every flush/commit, raising
`IntegrityError` when the resulting table violates them. -/

def uniqueUsernames : List UserRow → Bool
  | [] => true
  | u :: rest => rest.all (fun v => v.username != u.username) && uniqueUsernames rest

def uniqueIds : List UserRow → Bool
  | [] => true
  | u :: rest => rest.all (fun v => v.id != u.id) && uniqueIds rest

def tableOk (rows : List UserRow) : Bool :=
  uniqueUsernames rows && uniqueIds rows

def dbCommit (rows : List UserRow) : Except Err (List UserRow) :=
  if tableOk rows then .ok rows else .error .integrityError

/-! ## Store write operations (`app/models/user.py`) -/

/-- The shared password handling of `create_user` (lines 41–46) and
`update_user` (lines 134–139): when the payload has a `"password"` key,
validate and hash it and store the result under `"hashed_password"`. -/
def process_password (obj_in : Dict) : Except Err Dict :=
  match dictFind obj_in "password" with
  | some (.str p) =>
      match set_password p with
      | .error e => .error e
      | .ok h => .ok (dictErase obj_in "password" ++ [("hashed_password", FVal.str h)])
  | some _ => .error (.validationError "password must be a string")
  | none => .ok obj_in

/-- The freshly constructed `cls()` before field application: the column
defaults (`is_admin` false, timestamps from the server clock, no
soft-delete stamp) and the engine-assigned primary key. -/
def defaultRow (new_id : String) (now : Nat) : UserRow :=
  ⟨new_id, "", "", false, now, now, none⟩

/-- `User.create_user` (`app/models/user.py` lines 37–53): hash a
supplied password, apply the remaining fields dynamically, insert, and
commit on context exit. -/
def create_user (rows : List UserRow) (obj_in : Dict) (new_id : String)
    (now : Nat) : Except Err (List UserRow × UserRow) :=
  match process_password obj_in with
  | .error e => .error e
  | .ok obj_data =>
    let new_user := applyFields (defaultRow new_id now) obj_data
    match dbCommit (rows ++ [new_user]) with
    | .error e => .error e
    | .ok rows' => .ok (rows', new_user)

/-- `User.update_user` (`app/models/user.py` lines 102–149): re-fetch the
target including deleted rows; `ValueError` when it is gone, a bare
`Exception` when it is soft-deleted; otherwise hash a supplied password,
apply the fields to the passed object and commit (`updated_at` is
refreshed by the `onupdate` column default). -/
def update_user (rows : List UserRow) (db_obj : UserRow) (obj_in : Dict)
    (now : Nat) : Except Err (List UserRow × UserRow) :=
  match get_user_by_id rows db_obj.id true with
  | none => .error (.valueError "User not found")
  | some current =>
    if current.deleted_at.isSome then
      .error (.pyException "Cannot update deleted user")
    else
      match process_password obj_in with
      | .error e => .error e
      | .ok update_data =>
        let new_obj := { applyFields db_obj update_data with updated_at := now }
        let new_rows := rows.map (fun v => if v.id == db_obj.id then new_obj else v)
        match dbCommit new_rows with
        | .error e => .error e
        | .ok rows' => .ok (rows', new_obj)

/-- `User.delete_user` (`app/models/user.py` lines 151–158): fetch the
row including deleted ones and stamp `deleted_at = func.now()`.  When no
row exists the fetch returns `None` and the attribute assignment raises
`AttributeError`. -/
def delete_user (rows : List UserRow) (user_id : String) (now : Nat) :
    Except Err (List UserRow) :=
  match get_user_by_id rows user_id true with
  | none => .error (.attributeError "NoneType object has no attribute deleted_at")
  | some u =>
    let nu := { u with deleted_at := some now, updated_at := now }
    dbCommit (rows.map (fun v => if v.id == user_id then nu else v))

/-- `User.delete_user_permanently` (`app/models/user.py` lines 160–165). -/
def delete_user_permanently (rows : List UserRow) (user_id : String) :
    Except Err (List UserRow) :=
  match get_user_by_id rows user_id true with
  | none => .error (.attributeError "NoneType passed to session.delete")
  | some _ => dbCommit (rows.filter (fun v => v.id != user_id))

/-! ## Tokens (`app/core/auth.py`) -/

/-- The claims dictionaries the embedded call sites build: a subject and
an expiry (`{"sub": ..., "exp": ...}`, spec §6 token claims layout). -/
structure Claims where
  sub : Option String
  exp : Option Nat
deriving Repr, DecidableEq

/-- A token value: either the claims/secret/algorithm triple a signed
JWT determines (the `jwt.encode` output is a deterministic, injective
function of these — HS256 JWS involves no randomness), or a malformed
string. -/
inductive JwtToken where
  | signed (claims : Claims) (secret : String) (alg : String) : JwtToken
  | malformed (raw : String) : JwtToken
deriving Repr, DecidableEq

/-- `create_access_token` (`app/core/auth.py` lines 54–83): copy the
claims, overwrite `exp` with `now` plus the supplied or configured
lifetime, and sign with the access secret/algorithm. -/
def create_access_token (data : Claims) (expires_delta : Option Nat)
    (now : Nat) : JwtToken :=
  let expire := now + expires_delta.getD settings.jwt_access_token_expire_minutes
  JwtToken.signed ⟨data.sub, some expire⟩ settings.jwt_secret_key settings.jwt_algorithm

/-- `create_refresh_token` (`app/core/auth.py` lines 86–115). -/
def create_refresh_token (data : Claims) (expires_delta : Option Nat)
    (now : Nat) : JwtToken :=
  let expire := now + expires_delta.getD settings.jwt_refresh_token_expire_minutes
  JwtToken.signed ⟨data.sub, some expire⟩ settings.jwt_refresh_secret_key
    settings.jwt_refresh_algorithm

/-- Modelled from the spec: `decode(token, secret, algorithms)` of the
Token Service (§4.2).  The repository references a `decode_token`
function of `app.core.auth` from its tests (`tests/core/test_core_auth.py`)
and callers (`app/routers/auth.py`, `app/admin/core/auth.py`), but the
module under `src/backend/app/core/auth.py` does not define it; the same
contract also models the external `jose.jwt.decode` that
`get_current_user` calls directly.  Per the spec it verifies the
signature (secret match and algorithm membership) and the expiry claim,
failing with a `TokenError`; expiry follows the spec's token state
machine, `expired` exactly when `now ≥ exp`. -/
def decode_token (token : JwtToken) (secret : String)
    (algorithms : List String) (now : Nat) : Except TokenError Claims :=
  match token with
  | .malformed _ => .error .malformed
  | .signed claims s a =>
    if s == secret && algorithms.contains a then
      match claims.exp with
      | some e => if e ≤ now then .error .expired else .ok claims
      | none => .ok claims
    else
      .error .badSignature

/-! ## Authentication service (`app/core/auth.py`) -/

/-- `authenticate_user` (`app/core/auth.py` lines 30–51): look the active
user up by username; `None` uniformly when the user is absent or the
password does not verify. -/
def authenticate_user (rows : List UserRow) (username password : String) :
    Option UserRow :=
  match get_user_by_username rows username false with
  | none => none
  | some user =>
    if pwd_verify password user.hashed_password then some user else none

/-- `get_current_user` (`app/core/auth.py` lines 118–163): decode the
bearer token with the access secret (`jose.jwt.decode`, modelled by
`decode_token`; its own commented-out expiry re-check is dead code),
extract `sub`, and resolve the active user; every failure is the uniform
401 `"Could not validate credentials"`. -/
def get_current_user (rows : List UserRow) (token : JwtToken) (now : Nat) :
    Except Err UserRow :=
  match decode_token token settings.jwt_secret_key [settings.jwt_algorithm] now with
  | .error _ => .error (.httpError 401 "Could not validate credentials")
  | .ok payload =>
    match payload.sub with
    | none => .error (.httpError 401 "Could not validate credentials")
    | some username =>
      match get_user_by_username rows username false with
      | none => .error (.httpError 401 "Could not validate credentials")
      | some user => .ok user

/-- `get_current_admin_user` (`app/core/auth.py` lines 188–212). -/
def get_current_admin_user (current_user : UserRow) : Except Err UserRow :=
  if current_user.is_admin = false then
    .error (.httpError 403 "Not enough permissions")
  else
    .ok current_user

/-! ## Routers (`app/routers/users.py`, `app/routers/auth.py`) -/

/-- The payload of `POST /users/` (`UserCreate`): a required username and
password plus `is_admin` (optional with schema default `False`).  The
profile fields (`fullname`, `ctstagename`, `sweetname`, `group_id`) are
not attributes of the `User` model, so `create_user`'s `hasattr` guard
drops them; they are omitted. -/
structure UserCreateIn where
  username : String
  password : String
  is_admin : Bool
deriving Repr, DecidableEq

/-- FastAPI runs the pydantic validators before the handler body. -/
def validate_user_create (sch : UserCreateIn) : Except Err UserCreateIn :=
  match username_valid sch.username with
  | .error e => .error e
  | .ok un =>
    match password_valid sch.password with
    | .error e => .error e
    | .ok pw => .ok ⟨un, pw, sch.is_admin⟩

/-- `schema.model_dump()` of a validated `UserCreate`, restricted to the
keys that survive the `hasattr` filter, plus `password`. -/
def user_create_dump (sch : UserCreateIn) : Dict :=
  [("username", FVal.str sch.username),
   ("is_admin", FVal.boolean sch.is_admin),
   ("password", FVal.str sch.password)]

/-- `create_user` endpoint (`app/routers/users.py` lines 15–38): reject
with 400 when an active user already holds the username, otherwise
persist through `User.from_schema` / `User.create_user`. -/
def create_user_endpoint (rows : List UserRow) (sch : UserCreateIn)
    (new_id : String) (now : Nat) : Except Err (List UserRow × UserRow) :=
  match validate_user_create sch with
  | .error e => .error e
  | .ok v =>
    match get_user_by_username rows v.username false with
    | some _ => .error (.httpError 400 "Username already exists")
    | none => create_user rows (user_create_dump v) new_id now

/-- `update_user_me` endpoint (`app/routers/users.py` lines 112–142).
`is_admin_field` is the `user_in.is_admin` value the guard reads (the
schema default makes an omitted field arrive as `some false`; an explicit
null arrives as `none`); `payload` is the
`model_dump(exclude_unset=True)` dict handed to `User.update_user`. -/
def update_user_me (rows : List UserRow) (current_user : UserRow)
    (is_admin_field : Option Bool) (payload : Dict) (now : Nat) :
    Except Err (List UserRow × UserRow) :=
  if is_admin_field.isSome && is_admin_field != some current_user.is_admin then
    .error (.httpError 403
      "Not enough permissions. Only admins can change admin privileges.")
  else
    update_user rows current_user payload now

/-- The `try/except ValueError` of the `update_user` endpoint
(`app/routers/users.py` lines 186–190): only `ValueError` is translated
to 404; any other raised exception propagates. -/
def update_user_catch (r : Except Err (List UserRow × UserRow)) :
    Except Err (List UserRow × UserRow) :=
  match r with
  | .error (.valueError msg) => .error (.httpError 404 msg)
  | r => r

/-- `update_user` endpoint (`app/routers/users.py` lines 144–190). -/
def update_user_endpoint (rows : List UserRow) (current_user : UserRow)
    (user_id : String) (payload : Dict) (now : Nat) :
    Except Err (List UserRow × UserRow) :=
  if current_user.is_admin = false then
    .error (.httpError 403 "Not enough permissions. Only admins can update other users.")
  else
    match get_user_by_id rows user_id false with
    | none => .error (.httpError 404 "User not found")
    | some user => update_user_catch (update_user rows user payload now)

/-- `delete_user` endpoint (`app/routers/users.py` lines 192–229): the
existence check runs in the default scope, so soft-deleted rows 404. -/
def delete_user_endpoint (rows : List UserRow) (current_user : UserRow)
    (user_id : String) (now : Nat) : Except Err (List UserRow) :=
  match get_user_by_id rows user_id false with
  | none => .error (.httpError 404 "User not found")
  | some _ =>
    if current_user.is_admin = false then
      .error (.httpError 403 "Not enough permissions. Only admins can delete users.")
    else
      delete_user rows user_id now

/-- The names bound at module scope in `src/backend/app/core/auth.py`
(imports, module constants, classes and functions, in source order).
`decode_token` is not among them. -/
def auth_module_defs : List String :=
  ["datetime", "timedelta", "UTC", "Optional", "Dict", "Any",
   "Depends", "HTTPException", "status", "OAuth2PasswordBearer",
   "JWTError", "jwt", "BaseModel", "settings", "User",
   "oauth2_scheme", "Token", "TokenPayload",
   "authenticate_user", "create_access_token", "create_refresh_token",
   "get_current_user", "get_current_active_user", "get_current_admin_user"]

/-- The `Token` response model (`app/schemas/auth_schema.py`). -/
structure TokenResponse where
  access_token : JwtToken
  token_type : String
  refresh_token : Option JwtToken
deriving Repr, DecidableEq

/-- `refresh_access_token` endpoint (`app/routers/auth.py` lines 79–139).
The `try` body first resolves `auth.decode_token`; resolution against the
module namespace fails with `AttributeError`, and the surrounding
`except JWTError` clause does not catch it.  Were the attribute present,
the body would decode against the refresh secret and issue a fresh
access token for the same subject. -/
def refresh_access_token (rows : List UserRow) (refresh_token : JwtToken)
    (now : Nat) : Except Err TokenResponse :=
  let body : Except Err TokenResponse :=
    if auth_module_defs.contains "decode_token" then
      match decode_token refresh_token settings.jwt_refresh_secret_key
          [settings.jwt_refresh_algorithm] now with
      | .error e => .error (.jwtError e)
      | .ok payload =>
        match payload.sub with
        | none => .error (.httpError 401 "Invalid refresh token")
        | some username =>
          match get_user_by_username rows username false with
          | none => .error (.httpError 401 "User not found")
          | some _ =>
            .ok ⟨create_access_token ⟨some username, none⟩
                  (some settings.jwt_access_token_expire_minutes) now,
                 "bearer", none⟩
    else
      .error (.attributeError "module app.core.auth has no attribute decode_token")
  match body with
  | .error (.jwtError _) => .error (.httpError 401 "Invalid refresh token")
  | r => r

/-! ## Reachable store states

The states reachable from the empty table through the store's write
operations (create through the public endpoint or the raw classmethod,
update, soft delete, hard delete), each applied with an arbitrary
payload. -/

inductive Reachable : List UserRow → Prop where
  | init : Reachable []
  | createStep (rows rows' : List UserRow) (obj_in : Dict) (new_id : String)
      (now : Nat) (u : UserRow) : Reachable rows →
      create_user rows obj_in new_id now = .ok (rows', u) → Reachable rows'
  | updateStep (rows rows' : List UserRow) (db_obj u : UserRow) (obj_in : Dict)
      (now : Nat) : Reachable rows →
      update_user rows db_obj obj_in now = .ok (rows', u) → Reachable rows'
  | softDeleteStep (rows rows' : List UserRow) (user_id : String) (now : Nat) :
      Reachable rows → delete_user rows user_id now = .ok rows' → Reachable rows'
  | hardDeleteStep (rows rows' : List UserRow) (user_id : String) :
      Reachable rows → delete_user_permanently rows user_id = .ok rows' →
      Reachable rows'


/-! ## Helper lemmas -/

theorem password_valid_ok_eq {p q : String} (h : password_valid p = .ok q) :
    q = p := by
  unfold password_valid at h
  split at h
  · cases h
  · split at h
    · cases h
    · injection h with h2
      exact h2.symm

theorem dbCommit_ok {l l' : List UserRow} (h : dbCommit l = .ok l') :
    l' = l ∧ tableOk l = true := by
  unfold dbCommit at h
  split at h
  · cases h
    exact ⟨rfl, by assumption⟩
  · cases h

theorem tableOk_usernames {l : List UserRow} (h : tableOk l = true) :
    uniqueUsernames l = true := by
  unfold tableOk at h
  simp only [Bool.and_eq_true] at h
  exact h.1

theorem uniqueUsernames_inj {rows : List UserRow}
    (h : uniqueUsernames rows = true) {u v : UserRow}
    (hu : u ∈ rows) (hv : v ∈ rows) (huv : u.username = v.username) : u = v := by
  induction rows with
  | nil => cases hu
  | cons w rest ih =>
    unfold uniqueUsernames at h
    simp only [Bool.and_eq_true] at h
    obtain ⟨hall, hrest⟩ := h
    rcases List.mem_cons.mp hu with hu1 | hu2
    · rcases List.mem_cons.mp hv with hv1 | hv2
      · exact hu1.trans hv1.symm
      · exfalso
        have := List.all_eq_true.mp hall v hv2
        simp only [bne_iff_ne, ne_eq] at this
        exact this (huv.symm.trans (congrArg UserRow.username hu1))
    · rcases List.mem_cons.mp hv with hv1 | hv2
      · exfalso
        have := List.all_eq_true.mp hall u hu2
        simp only [bne_iff_ne, ne_eq] at this
        exact this (huv.trans (congrArg UserRow.username hv1))
      · exact ih hrest hu2 hv2

theorem uniqueUsernames_append_false {rows : List UserRow} {w x : UserRow}
    (hw : w ∈ rows) (hx : w.username = x.username) :
    uniqueUsernames (rows ++ [x]) = false := by
  induction rows with
  | nil => cases hw
  | cons r rest ih =>
    rcases List.mem_cons.mp hw with h1 | h2
    · have : ((rest ++ [x]).all fun v => v.username != r.username) = false := by
        refine List.all_eq_false.mpr ⟨x, by simp, ?_⟩
        simp [h1 ▸ hx]
      simp [uniqueUsernames, List.cons_append, this]
    · have := ih h2
      simp [uniqueUsernames, List.cons_append, this]

theorem create_user_ok {rows rows' : List UserRow} {obj_in : Dict}
    {new_id : String} {now : Nat} {u : UserRow}
    (h : create_user rows obj_in new_id now = .ok (rows', u)) :
    rows' = rows ++ [u] ∧ tableOk rows' = true ∧
    (∃ obj_data, process_password obj_in = .ok obj_data ∧
      u = applyFields (defaultRow new_id now) obj_data) := by
  unfold create_user at h
  split at h
  · cases h
  · rename_i obj_data hpp
    dsimp only at h
    split at h
    · cases h
    · rename_i rows'' hcommit
      cases h
      obtain ⟨hback, hok⟩ := dbCommit_ok hcommit
      exact ⟨hback, hback ▸ hok, obj_data, hpp, rfl⟩

theorem update_user_ok {rows rows' : List UserRow} {db_obj u : UserRow}
    {obj_in : Dict} {now : Nat}
    (h : update_user rows db_obj obj_in now = .ok (rows', u)) :
    tableOk rows' = true := by
  unfold update_user at h
  split at h
  · cases h
  · split at h
    · cases h
    · split at h
      · cases h
      · dsimp only at h
        split at h
        · cases h
        · rename_i hcommit
          cases h
          obtain ⟨hback, hok⟩ := dbCommit_ok hcommit
          exact hback ▸ hok

theorem delete_user_ok {rows rows' : List UserRow} {user_id : String} {now : Nat}
    (h : delete_user rows user_id now = .ok rows') :
    tableOk rows' = true := by
  unfold delete_user at h
  split at h
  · cases h
  · obtain ⟨hback, hok⟩ := dbCommit_ok h
    exact hback ▸ hok

theorem delete_user_permanently_ok {rows rows' : List UserRow} {user_id : String}
    (h : delete_user_permanently rows user_id = .ok rows') :
    tableOk rows' = true := by
  unfold delete_user_permanently at h
  split at h
  · cases h
  · obtain ⟨hback, hok⟩ := dbCommit_ok h
    exact hback ▸ hok

theorem reachable_tableOk {rows : List UserRow} (h : Reachable rows) :
    tableOk rows = true := by
  induction h with
  | init => rfl
  | createStep rows rows' obj_in new_id now u _ hok _ => exact (create_user_ok hok).2.1
  | updateStep rows rows' db_obj u obj_in now _ hok _ => exact update_user_ok hok
  | softDeleteStep rows rows' user_id now _ hok _ => exact delete_user_ok hok
  | hardDeleteStep rows rows' user_id _ hok _ => exact delete_user_permanently_ok hok


theorem find_mark (rows : List UserRow) (uid : String) (nu u : UserRow)
    (hfind : rows.find? (fun v => v.id == uid) = some u)
    (hnu : (nu.id == uid) = true) :
    (rows.map (fun v => if v.id == uid then nu else v)).find?
      (fun v => v.id == uid) = some nu := by
  induction rows with
  | nil => cases hfind
  | cons r rest ih =>
    cases hrb : (r.id == uid) with
    | true =>
      simp only [List.map_cons, if_pos hrb, List.find?, hnu]
    | false =>
      have hrb' : ¬ ((r.id == uid) = true) := by simp [hrb]
      rw [List.map_cons, if_neg hrb']
      simp only [List.find?, hrb] at hfind
      simp only [List.find?, hrb]
      exact ih hfind

theorem mark_inactive_invisible (rows : List UserRow) (uid : String)
    (nu : UserRow) (hdel : isActive nu = false) :
    get_user_by_id (rows.map (fun v => if v.id == uid then nu else v))
      uid false = none := by
  unfold get_user_by_id scopedRows
  simp only [Bool.false_eq_true, if_false]
  rw [List.find?_eq_none]
  intro x hx
  obtain ⟨hmem, hact⟩ := List.mem_filter.mp hx
  obtain ⟨v, hv, hfv⟩ := List.mem_map.mp hmem
  intro hxid
  by_cases hvid : (v.id == uid) = true
  · rw [if_pos hvid] at hfv
    rw [← hfv] at hact
    rw [hact] at hdel
    cases hdel
  · rw [if_neg hvid] at hfv
    rw [← hfv] at hxid
    exact hvid hxid

theorem get_user_by_id_default_active {rows : List UserRow} {uid : String}
    {u : UserRow} (h : get_user_by_id rows uid false = some u) :
    u.deleted_at = none := by
  unfold get_user_by_id scopedRows at h
  simp only [Bool.false_eq_true, if_false] at h
  have hmem := List.mem_of_find?_eq_some h
  have hact := (List.mem_filter.mp hmem).2
  exact Option.isNone_iff_eq_none.mp hact

theorem get_user_by_username_default_active {rows : List UserRow}
    {username : String} {u : UserRow}
    (h : get_user_by_username rows username false = some u) :
    u.deleted_at = none := by
  unfold get_user_by_username scopedRows at h
  simp only [Bool.false_eq_true, if_false] at h
  have hmem := List.mem_of_find?_eq_some h
  have hact := (List.mem_filter.mp hmem).2
  exact Option.isNone_iff_eq_none.mp hact

theorem get_all_users_default_active {rows : List UserRow} {u : UserRow}
    (h : u ∈ get_all_users rows false) : u.deleted_at = none := by
  unfold get_all_users scopedRows at h
  simp only [Bool.false_eq_true, if_false] at h
  exact Option.isNone_iff_eq_none.mp (List.mem_filter.mp h).2

theorem process_password_error_shape {obj_in : Dict} {e : Err}
    (h : process_password obj_in = .error e) : ∃ msg, e = .validationError msg := by
  unfold process_password at h
  split at h
  · rename_i p hfindeq
    unfold set_password at h
    cases hpv : password_valid p with
    | error e2 =>
      simp only [hpv] at h
      injection h with h2
      unfold password_valid at hpv
      split at hpv
      · injection hpv with h3
        exact ⟨_, h2.symm.trans h3.symm⟩
      · split at hpv
        · injection hpv with h3
          exact ⟨_, h2.symm.trans h3.symm⟩
        · cases hpv
    | ok q =>
      simp only [hpv] at h
      exact absurd h (by simp)
  · injection h with h2
    exact ⟨_, h2.symm⟩
  · cases h

theorem create_user_ne_httpError (rows : List UserRow) (obj_in : Dict)
    (new_id : String) (now : Nat) (st : Nat) (d : String) :
    create_user rows obj_in new_id now ≠ .error (.httpError st d) := by
  unfold create_user
  split
  · rename_i e hpp
    intro hcontra
    injection hcontra with h2
    obtain ⟨msg, hmsg⟩ := process_password_error_shape hpp
    rw [hmsg] at h2
    cases h2
  · dsimp only
    split
    · rename_i e hcommit
      unfold dbCommit at hcommit
      split at hcommit
      · cases hcommit
      · injection hcommit with h2
        intro hcontra
        injection hcontra with h3
        rw [← h2] at h3
        cases h3
    · intro hcontra
      cases hcontra

theorem update_user_ne_httpError (rows : List UserRow) (db_obj : UserRow)
    (obj_in : Dict) (now : Nat) (st : Nat) (d : String) :
    update_user rows db_obj obj_in now ≠ .error (.httpError st d) := by
  unfold update_user
  split
  · intro hcontra
    injection hcontra with h2
    cases h2
  · split
    · intro hcontra
      injection hcontra with h2
      cases h2
    · split
      · rename_i e hpp
        intro hcontra
        injection hcontra with h2
        obtain ⟨msg, hmsg⟩ := process_password_error_shape hpp
        rw [hmsg] at h2
        cases h2
      · dsimp only
        split
        · rename_i e hcommit
          unfold dbCommit at hcommit
          split at hcommit
          · cases hcommit
          · injection hcommit with h2
            intro hcontra
            injection hcontra with h3
            rw [← h2] at h3
            cases h3
        · intro hcontra
          cases hcontra

theorem setattrUser_hashed_of_ne (u : UserRow) (field : String) (v : FVal)
    (h : ¬ field = "hashed_password") :
    (setattrUser u field v).hashed_password = u.hashed_password := by
  unfold setattrUser
  by_cases h1 : field = "id"
  · rw [if_pos h1]
    cases v <;> rfl
  · rw [if_neg h1]
    by_cases h2 : field = "username"
    · rw [if_pos h2]
      cases v <;> rfl
    · rw [if_neg h2, if_neg h]
      by_cases h4 : field = "is_admin"
      · rw [if_pos h4]
        cases v <;> rfl
      · rw [if_neg h4]

theorem applyFields_cons (u : UserRow) (kv : String × FVal) (d : Dict) :
    applyFields u (kv :: d) = applyFields (setattrUser u kv.1 kv.2) d := rfl

theorem applyFields_append (u : UserRow) (d₁ d₂ : Dict) :
    applyFields u (d₁ ++ d₂) = applyFields (applyFields u d₁) d₂ := by
  unfold applyFields
  exact List.foldl_append _ _ _ _

theorem dictFind_eq_none_iff {d : Dict} {k : String} :
    dictFind d k = none ↔ ∀ kv ∈ d, ((kv : String × FVal).1 == k) = false := by
  unfold dictFind
  rw [Option.map_eq_none']
  rw [List.find?_eq_none]
  constructor
  · intro h kv hkv
    have := h kv hkv
    simpa using this
  · intro h kv hkv
    simp [h kv hkv]

theorem dictFind_cons_none {kv : String × FVal} {d : Dict} {k : String}
    (h : dictFind (kv :: d) k = none) :
    (kv.1 == k) = false ∧ dictFind d k = none := by
  have h2 := dictFind_eq_none_iff.mp h
  refine ⟨h2 kv (List.mem_cons_self _ _), ?_⟩
  exact dictFind_eq_none_iff.mpr (fun kv2 hkv2 => h2 kv2 (List.mem_cons_of_mem _ hkv2))

theorem dictFind_erase_none {d : Dict} {k k2 : String}
    (h : dictFind d k = none) : dictFind (dictErase d k2) k = none := by
  have h2 := dictFind_eq_none_iff.mp h
  refine dictFind_eq_none_iff.mpr (fun kv hkv => ?_)
  have hmem := List.mem_of_mem_filter hkv
  exact h2 kv hmem

theorem applyFields_hashed_of_absent {d : Dict} (u : UserRow)
    (h : dictFind d "hashed_password" = none) :
    (applyFields u d).hashed_password = u.hashed_password := by
  induction d generalizing u with
  | nil => rfl
  | cons kv rest ih =>
    obtain ⟨hk, hrest⟩ := dictFind_cons_none h
    rw [applyFields_cons]
    rw [ih _ hrest]
    exact setattrUser_hashed_of_ne u kv.1 kv.2 (by simpa using hk)

theorem process_password_with_password {obj_in : Dict} {p : String}
    (hfind : dictFind obj_in "password" = some (.str p))
    (hval : password_valid p = .ok p) :
    process_password obj_in =
      .ok (dictErase obj_in "password" ++
        [("hashed_password", FVal.str (pwd_hash p))]) := by
  simp only [process_password, hfind, set_password, hval]

theorem process_password_ok_inv {obj_in obj_data : Dict} {p : String}
    (hfind : dictFind obj_in "password" = some (.str p))
    (h : process_password obj_in = .ok obj_data) :
    password_valid p = .ok p ∧
    obj_data = dictErase obj_in "password" ++
      [("hashed_password", FVal.str (pwd_hash p))] := by
  simp only [process_password, hfind] at h
  cases hpv : password_valid p with
  | error e =>
    simp only [set_password, hpv] at h
    exact absurd h (by simp)
  | ok q =>
    have hq := password_valid_ok_eq hpv
    subst hq
    simp only [set_password, hpv] at h
    injection h with h2
    exact ⟨rfl, h2.symm⟩


/-! ## Claim theorems -/

/-- C10: `authenticate_user` returns the user exactly when an active user with
the given username exists and the password verifies against its stored hash;
otherwise it returns the single failure value `none`, identically whether the
username was absent or the password was wrong, so the result does not reveal
which of the two checks failed. -/
theorem c10_uniform_authentication_failure (rows : List UserRow)
    (username password : String) :
    (∀ u : UserRow, authenticate_user rows username password = some u ↔
      (get_user_by_username rows username false = some u ∧
       pwd_verify password u.hashed_password = true)) ∧
    (get_user_by_username rows username false = none →
      authenticate_user rows username password = none) ∧
    (∀ u : UserRow, get_user_by_username rows username false = some u →
      pwd_verify password u.hashed_password = false →
      authenticate_user rows username password = none) := by
  refine ⟨?_, ?_, ?_⟩
  · intro u
    cases hlook : get_user_by_username rows username false with
    | none =>
      constructor
      · intro h
        simp [authenticate_user, hlook] at h
      · rintro ⟨h1, h2⟩
        cases h1
    | some user =>
      cases hver : pwd_verify password user.hashed_password with
      | true =>
        simp only [authenticate_user, hlook, hver, if_true]
        constructor
        · intro h
          injection h with h2
          subst h2
          exact ⟨rfl, hver⟩
        · rintro ⟨h1, h2⟩
          exact h1
      | false =>
        simp only [authenticate_user, hlook]
        rw [if_neg (by simp [hver])]
        constructor
        · intro h
          cases h
        · rintro ⟨h1, h2⟩
          injection h1 with h1
          subst h1
          rw [hver] at h2
          cases h2
  · intro h
    simp [authenticate_user, h]
  · intro u h hver
    simp [authenticate_user, h, hver]

/-- Witness for C10 at concrete inputs: an empty store, a wrong password, and
a correct login. -/
theorem c10_uniform_authentication_failure_witness :
    authenticate_user [] "alice" "password123" = none ∧
    authenticate_user [⟨"u1", "alice", "$2b$12$password123", false, 1, 1, none⟩]
      "alice" "wrongpass99" = none ∧
    authenticate_user [⟨"u1", "alice", "$2b$12$password123", false, 1, 1, none⟩]
      "alice" "password123" =
      some ⟨"u1", "alice", "$2b$12$password123", false, 1, 1, none⟩ :=
  ⟨(c10_uniform_authentication_failure [] "alice" "password123").2.1 rfl,
   (c10_uniform_authentication_failure
      [⟨"u1", "alice", "$2b$12$password123", false, 1, 1, none⟩]
      "alice" "wrongpass99").2.2
      ⟨"u1", "alice", "$2b$12$password123", false, 1, 1, none⟩ rfl (by decide),
   ((c10_uniform_authentication_failure
      [⟨"u1", "alice", "$2b$12$password123", false, 1, 1, none⟩]
      "alice" "password123").1
      ⟨"u1", "alice", "$2b$12$password123", false, 1, 1, none⟩).mpr
      ⟨rfl, by decide⟩⟩

/-- C3: for every store state, refresh-token string and clock value, the
refresh endpoint fails with the `AttributeError` raised when `auth.decode_token`
is resolved against the `app.core.auth` module namespace (which has no such
attribute); it never returns a token response, and the failure is not the
`JWTError` the handler catches, so it is not translated into the 401 response
either. -/
theorem c3_refresh_attribute_error (rows : List UserRow)
    (refresh_token : JwtToken) (now : Nat) :
    refresh_access_token rows refresh_token now =
      .error (.attributeError "module app.core.auth has no attribute decode_token") ∧
    (∀ out : TokenResponse,
      refresh_access_token rows refresh_token now ≠ .ok out) ∧
    (∀ detail : String,
      refresh_access_token rows refresh_token now ≠
        .error (.httpError 401 detail)) := by
  have hmain : refresh_access_token rows refresh_token now =
      .error (.attributeError "module app.core.auth has no attribute decode_token") := rfl
  refine ⟨hmain, ?_, ?_⟩
  · intro out hcontra
    rw [hmain] at hcontra
    cases hcontra
  · intro detail hcontra
    rw [hmain] at hcontra
    injection hcontra with h2
    cases h2

/-- C2: token decoding fails with a `TokenError` on a malformed token, on an
invalid signature (wrong secret or algorithm not in the accepted list), and
whenever the clock has reached the `exp` claim; consequently resolving the
current user from an access token whose expiry has passed fails with the
uniform 401. -/
theorem c2_decode_verifies_signature_and_expiry :
    (∀ raw secret algorithms now,
      decode_token (.malformed raw) secret algorithms now = .error .malformed) ∧
    (∀ claims s a secret algorithms now,
      ((s == secret) && algorithms.contains a) = false →
      decode_token (.signed claims s a) secret algorithms now =
        .error .badSignature) ∧
    (∀ claims s a secret algorithms now e, claims.exp = some e → e ≤ now →
      (decode_token (.signed claims s a) secret algorithms now).isOk = false) ∧
    (∀ rows claims s a now e, claims.exp = some e → e ≤ now →
      get_current_user rows (.signed claims s a) now =
        .error (.httpError 401 "Could not validate credentials")) ∧
    (∀ rows raw now, get_current_user rows (.malformed raw) now =
      .error (.httpError 401 "Could not validate credentials")) := by
  refine ⟨fun _ _ _ _ => rfl, ?_, ?_, ?_, fun _ _ _ => rfl⟩
  · intro claims s a secret algorithms now hsig
    have hp : ¬ (s = secret ∧ a ∈ algorithms) := by simpa using hsig
    simp [decode_token, hp]
  · intro claims s a secret algorithms now e he hle
    cases hsig : ((s == secret) && algorithms.contains a) with
    | true =>
      have hp : s = secret ∧ a ∈ algorithms := by simpa using hsig
      simp [decode_token, hp.1, hp.2, he, hle, Except.isOk, Except.toBool]
    | false =>
      have hp : ¬ (s = secret ∧ a ∈ algorithms) := by simpa using hsig
      simp [decode_token, hp, Except.isOk, Except.toBool]
  · intro rows claims s a now e he hle
    cases hsig : ((s == settings.jwt_secret_key) &&
        ([settings.jwt_algorithm].contains a)) with
    | true =>
      have hp : s = settings.jwt_secret_key ∧ a = settings.jwt_algorithm := by
        simpa using hsig
      simp [get_current_user, decode_token, hp.1, hp.2, he, hle]
    | false =>
      have hp : ¬ (s = settings.jwt_secret_key ∧ a = settings.jwt_algorithm) := by
        simpa using hsig
      simp [get_current_user, decode_token, hp]

/-- Witness for C2: a token signed with the wrong secret is rejected, and an
access token whose expiry has passed does not resolve a current user. -/
theorem c2_decode_verifies_signature_and_expiry_witness :
    decode_token (.signed ⟨some "alice", some 9⟩ "other_secret" "HS256")
      "my_secret_key" ["HS256"] 0 = .error .badSignature ∧
    (decode_token (.signed ⟨some "alice", some 5⟩ "my_secret_key" "HS256")
      "my_secret_key" ["HS256"] 5).isOk = false ∧
    get_current_user [] (.signed ⟨some "alice", some 5⟩ "my_secret_key" "HS256") 5 =
      .error (.httpError 401 "Could not validate credentials") :=
  ⟨c2_decode_verifies_signature_and_expiry.2.1 ⟨some "alice", some 9⟩
      "other_secret" "HS256" "my_secret_key" ["HS256"] 0 (by decide),
   c2_decode_verifies_signature_and_expiry.2.2.1 ⟨some "alice", some 5⟩
      "my_secret_key" "HS256" "my_secret_key" ["HS256"] 5 5 rfl (by decide),
   c2_decode_verifies_signature_and_expiry.2.2.2.1 [] ⟨some "alice", some 5⟩
      "my_secret_key" "HS256" 5 5 rfl (by decide)⟩


/-- C4: soft-delete visibility round trip: deleting a present user makes the
default-scoped lookup return `none` while the include-deleted lookup returns
the row with `deleted_at` stamped; and every default-scoped read
(`get_user_by_id`, `get_user_by_username`, `get_all_users`) returns only rows
with `deleted_at` null. -/
theorem c4_soft_delete_visibility :
    (∀ rows user_id now rows' u,
      get_user_by_id rows user_id true = some u →
      delete_user rows user_id now = .ok rows' →
      get_user_by_id rows' user_id false = none ∧
      get_user_by_id rows' user_id true =
        some { u with deleted_at := some now, updated_at := now }) ∧
    (∀ rows user_id u, get_user_by_id rows user_id false = some u →
      u.deleted_at = none) ∧
    (∀ rows username u, get_user_by_username rows username false = some u →
      u.deleted_at = none) ∧
    (∀ rows u, u ∈ get_all_users rows false → u.deleted_at = none) := by
  refine ⟨?_, ?_, ?_, ?_⟩
  · intro rows user_id now rows' u hfound hdel
    unfold delete_user at hdel
    simp only [hfound] at hdel
    obtain ⟨hrows, hok⟩ := dbCommit_ok hdel
    subst hrows
    constructor
    · exact mark_inactive_invisible rows user_id _ rfl
    · have hfind : rows.find? (fun v => v.id == user_id) = some u := by
        simpa [get_user_by_id, scopedRows] using hfound
      have hid := List.find?_some hfind
      have hmk := find_mark rows user_id
        { u with deleted_at := some now, updated_at := now } u hfind (by simpa using hid)
      simpa [get_user_by_id, scopedRows] using hmk
  · intro rows user_id u h
    exact get_user_by_id_default_active h
  · intro rows username u h
    exact get_user_by_username_default_active h
  · intro rows u h
    exact get_all_users_default_active h

/-- Witness for C4: soft-deleting the only user makes the default lookup
return nothing while the include-deleted lookup returns the stamped row. -/
theorem c4_soft_delete_visibility_witness :
    get_user_by_id [⟨"u1", "alice", "$2b$12$password123", false, 1, 2, some 2⟩]
      "u1" false = none ∧
    get_user_by_id [⟨"u1", "alice", "$2b$12$password123", false, 1, 2, some 2⟩]
      "u1" true =
      some ⟨"u1", "alice", "$2b$12$password123", false, 1, 2, some 2⟩ :=
  c4_soft_delete_visibility.1
    [⟨"u1", "alice", "$2b$12$password123", false, 1, 1, none⟩] "u1" 2
    [⟨"u1", "alice", "$2b$12$password123", false, 1, 2, some 2⟩]
    ⟨"u1", "alice", "$2b$12$password123", false, 1, 1, none⟩ rfl rfl

/-- C6 (amended): the delete endpoint answers 404 for every id with no
default-scope row — both for ids with no row at all and for already
soft-deleted rows, which are therefore rejected rather than idempotently
re-deleted; the store-level `delete_user` on an id with no row at all raises
`AttributeError` (not `NotFoundError`); and a successful soft delete stamps
`deleted_at` with the current time. -/
theorem c6_soft_delete_missing_and_deleted (rows : List UserRow)
    (cu : UserRow) (user_id : String) (now : Nat) :
    (get_user_by_id rows user_id false = none →
      delete_user_endpoint rows cu user_id now =
        .error (.httpError 404 "User not found")) ∧
    (get_user_by_id rows user_id true = none →
      delete_user rows user_id now =
        .error (.attributeError "NoneType object has no attribute deleted_at")) ∧
    (∀ u rows', get_user_by_id rows user_id true = some u →
      delete_user rows user_id now = .ok rows' →
      get_user_by_id rows' user_id true =
        some { u with deleted_at := some now, updated_at := now }) := by
  refine ⟨?_, ?_, ?_⟩
  · intro h
    simp [delete_user_endpoint, h]
  · intro h
    simp [delete_user, h]
  · intro u rows' hfound hdel
    unfold delete_user at hdel
    simp only [hfound] at hdel
    obtain ⟨hrows, hok⟩ := dbCommit_ok hdel
    subst hrows
    have hfind : rows.find? (fun v => v.id == user_id) = some u := by
      simpa [get_user_by_id, scopedRows] using hfound
    have hid := List.find?_some hfind
    have hmk := find_mark rows user_id
      { u with deleted_at := some now, updated_at := now } u hfind (by simpa using hid)
    simpa [get_user_by_id, scopedRows] using hmk

/-- Witness for C6: a missing id 404s at the endpoint, and a successful soft
delete leaves the stamped row visible to an include-deleted lookup. -/
theorem c6_soft_delete_missing_and_deleted_witness :
    delete_user_endpoint [] ⟨"u9", "dummy", "h", false, 0, 0, none⟩ "x" 1 =
      .error (.httpError 404 "User not found") ∧
    get_user_by_id [⟨"u5", "carol", "$2b$12$carolpass1", false, 1, 4, some 4⟩]
      "u5" true =
      some ⟨"u5", "carol", "$2b$12$carolpass1", false, 1, 4, some 4⟩ :=
  ⟨(c6_soft_delete_missing_and_deleted []
      ⟨"u9", "dummy", "h", false, 0, 0, none⟩ "x" 1).1 rfl,
   (c6_soft_delete_missing_and_deleted
      [⟨"u5", "carol", "$2b$12$carolpass1", false, 1, 1, none⟩]
      ⟨"u9", "dummy", "h", false, 0, 0, none⟩ "u5" 4).2.2
      ⟨"u5", "carol", "$2b$12$carolpass1", false, 1, 1, none⟩
      [⟨"u5", "carol", "$2b$12$carolpass1", false, 1, 4, some 4⟩] rfl rfl⟩

/-- C6 counterexample: with admin `bob` and an already soft-deleted `alice`,
the delete endpoint rejects `alice`'s id with 404 instead of permitting the
idempotent re-delete the claim describes; and the store-level `delete_user` on
an id with no row raises `AttributeError`, not `NotFoundError`. -/
theorem c6_counterexample :
    delete_user_endpoint
      [⟨"u1", "alice", "$2b$12$password123", false, 1, 2, some 2⟩,
       ⟨"u2", "bob", "$2b$12$adminpass99", true, 1, 1, none⟩]
      ⟨"u2", "bob", "$2b$12$adminpass99", true, 1, 1, none⟩ "u1" 7 =
      .error (.httpError 404 "User not found") ∧
    delete_user [] "ghost" 3 =
      .error (.attributeError "NoneType object has no attribute deleted_at") :=
  ⟨rfl, rfl⟩

/-- C5 (amended): when the re-check inside `update_user` finds the target
soft-deleted, the operation fails with the bare `Exception`
`"Cannot update deleted user"` — not the `ValueError` that the endpoint maps
to 404 — leaving the stored rows unchanged (the operation returns no new
state); the endpoint's `except ValueError` clause passes this exception
through untranslated. -/
theorem c5_update_deleted_generic_exception (rows : List UserRow)
    (db_obj : UserRow) (obj_in : Dict) (now : Nat) :
    (∀ cur, get_user_by_id rows db_obj.id true = some cur →
      cur.deleted_at.isSome = true →
      update_user rows db_obj obj_in now =
        .error (.pyException "Cannot update deleted user")) ∧
    (∀ msg, update_user_catch (.error (.pyException msg)) =
      .error (.pyException msg)) := by
  refine ⟨?_, fun msg => rfl⟩
  intro cur hfound hdel
  simp [update_user, hfound, hdel]

/-- Witness for C5: updating a soft-deleted `bob` fails with the generic
exception. -/
theorem c5_update_deleted_generic_exception_witness :
    update_user [⟨"u2", "bob", "$2b$12$bobpass1234", false, 1, 3, some 3⟩]
      ⟨"u2", "bob", "$2b$12$bobpass1234", false, 1, 3, some 3⟩ [] 5 =
      .error (.pyException "Cannot update deleted user") :=
  (c5_update_deleted_generic_exception
    [⟨"u2", "bob", "$2b$12$bobpass1234", false, 1, 3, some 3⟩]
    ⟨"u2", "bob", "$2b$12$bobpass1234", false, 1, 3, some 3⟩ [] 5).1
    ⟨"u2", "bob", "$2b$12$bobpass1234", false, 1, 3, some 3⟩ rfl rfl

/-- C5 counterexample: updating the soft-deleted `alice` row yields the bare
exception, which is not the `ValueError`/404 `NotFoundError` the claim
states, and the endpoint's catch clause leaves it untranslated. -/
theorem c5_counterexample :
    update_user [⟨"u1", "alice", "$2b$12$password123", false, 1, 2, some 2⟩]
      ⟨"u1", "alice", "$2b$12$password123", false, 1, 2, some 2⟩
      [("username", FVal.str "alicia")] 9 =
      .error (.pyException "Cannot update deleted user") ∧
    update_user_catch
      (update_user [⟨"u1", "alice", "$2b$12$password123", false, 1, 2, some 2⟩]
        ⟨"u1", "alice", "$2b$12$password123", false, 1, 2, some 2⟩
        [("username", FVal.str "alicia")] 9) =
      .error (.pyException "Cannot update deleted user") ∧
    Err.pyException "Cannot update deleted user" ≠ Err.valueError "User not found" :=
  ⟨rfl, rfl, by decide⟩


theorem validate_user_create_ok_inv {sch v : UserCreateIn}
    (h : validate_user_create sch = .ok v) :
    password_valid v.password = .ok v.password := by
  unfold validate_user_create at h
  cases hu : username_valid sch.username with
  | error e =>
    simp only [hu] at h
    exact absurd h (by simp)
  | ok un =>
    simp only [hu] at h
    cases hp : password_valid sch.password with
    | error e =>
      simp only [hp] at h
      exact absurd h (by simp)
    | ok pw =>
      simp only [hp] at h
      have hpw := password_valid_ok_eq hp
      subst hpw
      injection h with h2
      subst h2
      simpa using hp

/-- C1 (amended): at every reachable store state at most one non-deleted user
holds a given username (usernames are in fact unique across all rows, the
column being declared unique without regard to soft deletion); the create
endpoint rejects with the 400 conflict exactly when the username collides
with an active user; but a username held by a soft-deleted user still blocks
the create — the insert violates the column's unique constraint and fails
with `IntegrityError` instead of succeeding. -/
theorem c1_username_uniqueness :
    (∀ rows, Reachable rows → ∀ u ∈ rows, ∀ v ∈ rows,
      u.deleted_at = none → v.deleted_at = none →
      u.username = v.username → u = v) ∧
    (∀ rows sch new_id now v, validate_user_create sch = .ok v →
      (create_user_endpoint rows sch new_id now =
        .error (.httpError 400 "Username already exists") ↔
       (get_user_by_username rows v.username false).isSome = true)) ∧
    (∀ rows sch new_id now v w, validate_user_create sch = .ok v →
      get_user_by_username rows v.username false = none →
      w ∈ rows → w.username = v.username →
      create_user_endpoint rows sch new_id now = .error .integrityError) := by
  refine ⟨?_, ?_, ?_⟩
  · intro rows hreach u hu v hv _ _ huv
    exact uniqueUsernames_inj (tableOk_usernames (reachable_tableOk hreach)) hu hv huv
  · intro rows sch new_id now v hval
    cases hlook : get_user_by_username rows v.username false with
    | some w => simp [create_user_endpoint, hval, hlook]
    | none =>
      simp only [create_user_endpoint, hval, hlook, Option.isSome_none,
        Bool.false_eq_true, iff_false]
      exact create_user_ne_httpError rows (user_create_dump v) new_id now 400
        "Username already exists"
  · intro rows sch new_id now v w hval hlook hw hwname
    have hpw : password_valid v.password = .ok v.password :=
      validate_user_create_ok_inv hval
    have hfindp : dictFind (user_create_dump v) "password" =
        some (.str v.password) := rfl
    have hpp := process_password_with_password hfindp hpw
    simp only [create_user_endpoint, hval, hlook]
    unfold create_user
    simp only [hpp]
    have hfalse : uniqueUsernames (rows ++
        [applyFields (defaultRow new_id now)
          (dictErase (user_create_dump v) "password" ++
            [("hashed_password", FVal.str (pwd_hash v.password))])]) = false :=
      uniqueUsernames_append_false hw hwname
    simp [dbCommit, tableOk, hfalse]

/-- Witness for C1: a second create for active `alice` is rejected with the
400 conflict, and the singleton reachable state has pairwise-distinct active
usernames. -/
theorem c1_username_uniqueness_witness :
    create_user_endpoint [⟨"u1", "alice", "$2b$12$password123", false, 1, 1, none⟩]
      ⟨"alice", "password123", false⟩ "u2" 5 =
      .error (.httpError 400 "Username already exists") ∧
    (⟨"u1", "alice", "$2b$12$password123", false, 1, 1, none⟩ : UserRow) =
      ⟨"u1", "alice", "$2b$12$password123", false, 1, 1, none⟩ := by
  constructor
  · exact (c1_username_uniqueness.2.1
      [⟨"u1", "alice", "$2b$12$password123", false, 1, 1, none⟩]
      ⟨"alice", "password123", false⟩ "u2" 5
      ⟨"alice", "password123", false⟩ rfl).mpr rfl
  · have hreach : Reachable [⟨"u1", "alice", "$2b$12$password123", false, 1, 1, none⟩] :=
      Reachable.createStep [] [⟨"u1", "alice", "$2b$12$password123", false, 1, 1, none⟩]
        [("username", FVal.str "alice"), ("is_admin", FVal.boolean false),
         ("password", FVal.str "password123")] "u1" 1
        ⟨"u1", "alice", "$2b$12$password123", false, 1, 1, none⟩ Reachable.init rfl
    exact c1_username_uniqueness.1 _ hreach _ (by simp) _ (by simp) rfl rfl rfl

/-- C1 counterexample: create `alice`, soft-delete her, then create `alice`
again — the second create passes the endpoint's active-scope check but fails
with `IntegrityError` on the column's unique constraint, so a username held
by a soft-deleted user does block reuse, contrary to the claim. -/
theorem c1_counterexample :
    create_user_endpoint [] ⟨"alice", "password123", false⟩ "u1" 1 =
      .ok ([⟨"u1", "alice", "$2b$12$password123", false, 1, 1, none⟩],
           ⟨"u1", "alice", "$2b$12$password123", false, 1, 1, none⟩) ∧
    delete_user [⟨"u1", "alice", "$2b$12$password123", false, 1, 1, none⟩] "u1" 2 =
      .ok [⟨"u1", "alice", "$2b$12$password123", false, 1, 2, some 2⟩] ∧
    create_user_endpoint [⟨"u1", "alice", "$2b$12$password123", false, 1, 2, some 2⟩]
      ⟨"alice", "password123", false⟩ "u2" 3 = .error .integrityError :=
  ⟨rfl, rfl, rfl⟩


/-- C7 (amended): the self-update guard fires exactly when the payload's
`is_admin` value is present and differs from the caller's current value
(an omitted field arrives as `some false` through the schema default); a
supplied value equal to the current one passes the guard, and a non-admin
setting `is_admin=true` on themselves always fails with the 403. -/
theorem c7_admin_elevation_guard (rows : List UserRow) (cu : UserRow)
    (f : Option Bool) (payload : Dict) (now : Nat) :
    (update_user_me rows cu f payload now =
      .error (.httpError 403
        "Not enough permissions. Only admins can change admin privileges.") ↔
     (f.isSome = true ∧ f ≠ some cu.is_admin)) ∧
    (cu.is_admin = false → f = some true →
      update_user_me rows cu f payload now =
        .error (.httpError 403
          "Not enough permissions. Only admins can change admin privileges.")) := by
  constructor
  · cases hc : (f.isSome && (f != some cu.is_admin)) with
    | true =>
      have hp : f.isSome = true ∧ ¬ f = some cu.is_admin := by simpa using hc
      simp [update_user_me, hc, hp.1, hp.2]
    | false =>
      have hp : ¬ (f.isSome = true ∧ ¬ f = some cu.is_admin) := by simpa using hc
      simp only [update_user_me, hc, Bool.false_eq_true, if_false]
      constructor
      · intro h
        exact absurd h (update_user_ne_httpError rows cu payload now 403
          "Not enough permissions. Only admins can change admin privileges.")
      · intro h
        exact absurd ⟨h.1, h.2⟩ hp
  · intro hadmin hf
    subst hf
    simp [update_user_me, hadmin]

/-- Witness for C7: a non-admin supplying `is_admin=true` on themselves is
rejected with the 403. -/
theorem c7_admin_elevation_guard_witness :
    update_user_me [] ⟨"u3", "dave", "$2b$12$davepass12", false, 1, 1, none⟩
      (some true) [] 2 =
      .error (.httpError 403
        "Not enough permissions. Only admins can change admin privileges.") :=
  (c7_admin_elevation_guard [] ⟨"u3", "dave", "$2b$12$davepass12", false, 1, 1, none⟩
    (some true) [] 2).2 rfl rfl

/-- C7 counterexample: non-admin `carol` supplies `is_admin=false`, equal to
her current value; the claim says any payload containing an `is_admin` value
is rejected with `PermissionError`, but the guard only fires on a differing
value, and the self-update proceeds. -/
theorem c7_counterexample :
    update_user_me [⟨"u3", "carol", "$2b$12$carolpass9", false, 1, 1, none⟩]
      ⟨"u3", "carol", "$2b$12$carolpass9", false, 1, 1, none⟩
      (some false) [] 4 =
      .ok ([⟨"u3", "carol", "$2b$12$carolpass9", false, 1, 4, none⟩],
           ⟨"u3", "carol", "$2b$12$carolpass9", false, 1, 4, none⟩) :=
  rfl

/-- C8 (amended): access-token issuance is a deterministic, injective function
of the subject and the clock: the signed claims are exactly the subject and
the computed expiry — no nonce, counter, or other per-issuance entropy — so
two issuances with the same subject in the same clock tick yield the same
token, and two issued tokens are equal exactly when subject and clock agree. -/
theorem c8_issuance_deterministic :
    (∀ sub e d now, create_access_token ⟨sub, e⟩ (some d) now =
      JwtToken.signed ⟨sub, some (now + d)⟩ "my_secret_key" "HS256") ∧
    (∀ s1 s2 e1 e2 d now1 now2,
      create_access_token ⟨some s1, e1⟩ (some d) now1 =
        create_access_token ⟨some s2, e2⟩ (some d) now2 ↔
      (s1 = s2 ∧ now1 = now2)) := by
  constructor
  · intro sub e d now
    rfl
  · intro s1 s2 e1 e2 d now1 now2
    simp [create_access_token, settings]

/-- C8 counterexample: two refresh issuances for subject `alice` within the
same clock tick produce the very same token value — the signed claims carry
only `sub` and `exp`, with no per-issuance entropy to separate them. -/
theorem c8_counterexample :
    create_access_token ⟨some "alice", none⟩ (some 30) 1000 =
      create_access_token ⟨some "alice", none⟩ (some 30) 1000 ∧
    create_access_token ⟨some "alice", none⟩ (some 30) 1000 =
      JwtToken.signed ⟨some "alice", some 1030⟩ "my_secret_key" "HS256" :=
  ⟨rfl, rfl⟩

theorem pwd_hash_head (p : String) : (pwd_hash p).data.head? = some (Char.ofNat 36) := by
  show (("$2b$12$" ++ p)).data.head? = some (Char.ofNat 36)
  rfl

/-- C9 (amended): a password supplied under the `"password"` key is validated
(8–30 characters, non-blank after strip) and stored only as its bcrypt hash —
this holds for both the create and the update path, and even when the payload
also carries a `"hashed_password"` key the hash wins, since the merged dict
overrides it; schema-derived create payloads never contain a
`"hashed_password"` key; but the store interface itself applies any model
attribute present in the mapping, so a payload carrying `"hashed_password"`
with no `"password"` stores the supplied value verbatim — a value such as
`"not-a-hash"` that no hashing-service output equals. -/
theorem c9_password_always_hashed :
    (∀ rows obj_in new_id now rows' u p,
      dictFind obj_in "password" = some (.str p) →
      create_user rows obj_in new_id now = .ok (rows', u) →
      u.hashed_password = pwd_hash p ∧ password_valid p = .ok p) ∧
    (∀ rows db_obj obj_in now rows' u p,
      dictFind obj_in "password" = some (.str p) →
      update_user rows db_obj obj_in now = .ok (rows', u) →
      u.hashed_password = pwd_hash p ∧ password_valid p = .ok p) ∧
    (∀ sch : UserCreateIn,
      dictFind (user_create_dump sch) "hashed_password" = none) ∧
    (∀ p : String, pwd_hash p ≠ "not-a-hash") := by
  refine ⟨?_, ?_, fun sch => rfl, ?_⟩
  · intro rows obj_in new_id now rows' u p hfind hok
    obtain ⟨hrows, htab, obj_data, hpp, hu⟩ := create_user_ok hok
    obtain ⟨hpv, hdata⟩ := process_password_ok_inv hfind hpp
    subst hdata
    subst hu
    refine ⟨?_, hpv⟩
    rw [applyFields_append]
    rfl
  · intro rows db_obj obj_in now rows' u p hfind hok
    unfold update_user at hok
    split at hok
    · cases hok
    · split at hok
      · cases hok
      · split at hok
        · cases hok
        · rename_i update_data hpp
          dsimp only at hok
          split at hok
          · cases hok
          · cases hok
            obtain ⟨hpv, hdata⟩ := process_password_ok_inv hfind hpp
            subst hdata
            refine ⟨?_, hpv⟩
            show (applyFields db_obj _).hashed_password = _
            rw [applyFields_append]
            rfl
  · intro p h
    have h1 : (pwd_hash p).data.head? = some 'n' := by
      rw [h]
      rfl
    rw [pwd_hash_head p] at h1
    exact absurd h1 (by decide)

/-- Witness for C9: a create whose payload carries the valid password
`"password123"` stores exactly its hash, and an update re-hashes likewise. -/
theorem c9_password_always_hashed_witness :
    ((⟨"u1", "alice", "$2b$12$password123", false, 1, 1, none⟩ : UserRow).hashed_password =
      pwd_hash "password123" ∧ password_valid "password123" = .ok "password123") ∧
    ((⟨"u2", "bob", "$2b$12$newpass9999", false, 1, 6, none⟩ : UserRow).hashed_password =
      pwd_hash "newpass9999" ∧ password_valid "newpass9999" = .ok "newpass9999") :=
  ⟨c9_password_always_hashed.1 []
      [("username", FVal.str "alice"), ("password", FVal.str "password123")]
      "u1" 1 [⟨"u1", "alice", "$2b$12$password123", false, 1, 1, none⟩]
      ⟨"u1", "alice", "$2b$12$password123", false, 1, 1, none⟩ "password123" rfl rfl,
   c9_password_always_hashed.2.1
      [⟨"u2", "bob", "$2b$12$oldpass1234", false, 1, 1, none⟩]
      ⟨"u2", "bob", "$2b$12$oldpass1234", false, 1, 1, none⟩
      [("password", FVal.str "newpass9999")] 6
      [⟨"u2", "bob", "$2b$12$newpass9999", false, 1, 6, none⟩]
      ⟨"u2", "bob", "$2b$12$newpass9999", false, 1, 6, none⟩ "newpass9999" rfl rfl⟩

/-- C9 counterexample: a payload carrying `"hashed_password"` directly (and no
password) is stored verbatim by `create_user` — the stored credential is the
supplied string `"not-a-hash"`, which is not an output of the hashing
service. -/
theorem c9_counterexample :
    create_user [] [("username", FVal.str "mallory"),
      ("hashed_password", FVal.str "not-a-hash")] "u9" 0 =
      .ok ([⟨"u9", "mallory", "not-a-hash", false, 0, 0, none⟩],
           ⟨"u9", "mallory", "not-a-hash", false, 0, 0, none⟩) ∧
    "not-a-hash".data.head? = some 'n' :=
  ⟨rfl, rfl⟩

end FastAPIUsers
